import Mathlib

/-
Shallow embedding of the Graph Store core of the opfs-memory repository
(src/memory/src/core/KnowledgeGraphManager.ts).  File I/O is modelled by
passing the graph value explicitly; UUID generation and timestamps are
modelled as explicit parameters (a generator function `Nat → String` and a
timestamp string), mirroring the single `getCurrentTimestamp()` call per
batch and the per-record `generateUUID()` calls of the source.
-/

namespace OpfsMemory

/-- Entity record: `interface Entity extends BaseRecord` with
`name`, `entityType`, `observations`. -/
structure Entity where
  uuid : String
  createdAt : String
  updatedAt : String
  name : String
  entityType : String
  observations : List String
  deriving DecidableEq

/-- Relation record: `interface Relation extends BaseRecord` with
`from`, `to`, `relationType`. -/
structure Relation where
  uuid : String
  createdAt : String
  updatedAt : String
  «from» : String
  «to» : String
  relationType : String
  deriving DecidableEq

/-- In-memory graph: `interface KnowledgeGraph { entries; relations }`. -/
structure KnowledgeGraph where
  entries : List Entity
  relations : List Relation
  deriving DecidableEq

/-- Candidate entity, `Omit<Entity, keyof BaseRecord>`. -/
structure EntityInput where
  name : String
  entityType : String
  observations : List String
  deriving DecidableEq

/-- Candidate relation, `Omit<Relation, keyof BaseRecord>`. -/
structure RelationInput where
  «from» : String
  «to» : String
  relationType : String
  deriving DecidableEq

/-- Assign fresh identity and the shared batch timestamp to surviving
entity candidates, in order (`.map` after the dedup filter in
`createEntities`); `gen i` models the i-th `generateUUID()` call. -/
def assignEntityIds (es : List EntityInput) (gen : Nat → String) (i : Nat)
    (timestamp : String) : List Entity :=
  match es with
  | [] => []
  | e :: rest =>
    { uuid := gen i, createdAt := timestamp, updatedAt := timestamp,
      name := e.name, entityType := e.entityType,
      observations := e.observations } :: assignEntityIds rest gen (i + 1) timestamp

/-- Assign fresh identity and the shared batch timestamp to surviving
relation candidates, in order. -/
def assignRelationIds (rs : List RelationInput) (gen : Nat → String) (i : Nat)
    (timestamp : String) : List Relation :=
  match rs with
  | [] => []
  | r :: rest =>
    { uuid := gen i, createdAt := timestamp, updatedAt := timestamp,
      «from» := r.«from», «to» := r.«to»,
      relationType := r.relationType } :: assignRelationIds rest gen (i + 1) timestamp

/-- `createEntities`: filter candidates against the entities already stored,
stamp the survivors, append, save only when the batch was not empty.
Returns the updated graph (the saved state) and the created records. -/
def createEntities (g : KnowledgeGraph) (entities : List EntityInput)
    (gen : Nat → String) (timestamp : String) : KnowledgeGraph × List Entity :=
  let newEntities :=
    assignEntityIds
      (entities.filter fun e =>
        !(g.entries.any fun existingEntity => existingEntity.name == e.name))
      gen 0 timestamp
  if newEntities.length > 0 then
    ({ g with entries := g.entries ++ newEntities }, newEntities)
  else
    (g, newEntities)

/-- `createRelations`: filter candidates against the stored relations by the
`(from, to, relationType)` triple, stamp the survivors, append. -/
def createRelations (g : KnowledgeGraph) (relations : List RelationInput)
    (gen : Nat → String) (timestamp : String) : KnowledgeGraph × List Relation :=
  let newRelations :=
    assignRelationIds
      (relations.filter fun r =>
        !(g.relations.any fun existingRelation =>
          existingRelation.«from» == r.«from» &&
          existingRelation.«to» == r.«to» &&
          existingRelation.relationType == r.relationType))
      gen 0 timestamp
  if newRelations.length > 0 then
    ({ g with relations := g.relations ++ newRelations }, newRelations)
  else
    (g, newRelations)

/-- One `addObservations` batch element `{ entityName, contents }`. -/
structure ObservationAdd where
  entityName : String
  contents : List String
  deriving DecidableEq

/-- Per-entity result `{ entityName, addedObservations }`. -/
structure AddResult where
  entityName : String
  addedObservations : List String
  deriving DecidableEq

/-- Apply one observation batch to the first entity whose name matches
(`graph.entries.find` + in-place mutation in the source); `none` when no
entity carries the name, which the source turns into a thrown error. -/
def addToFirst (entries : List Entity) (n : String) (contents : List String)
    (timestamp : String) : Option (List Entity × List String) :=
  match entries with
  | [] => none
  | e :: rest =>
    if e.name == n then
      let newObservations := contents.filter fun content => !(e.observations.contains content)
      if newObservations.length > 0 then
        let e2 := { e with observations := e.observations ++ newObservations,
                           updatedAt := timestamp }
        some (e2 :: rest, newObservations)
      else
        some (e :: rest, newObservations)
    else
      match addToFirst rest n contents timestamp with
      | none => none
      | some (rest2, added) => some (e :: rest2, added)

/-- Process the `addObservations` input sequentially over the entries list;
an unknown entity name aborts the whole call with the error the source
throws (so the mutated graph is never saved). -/
def addObservationsList (entries : List Entity) (obs : List ObservationAdd)
    (timestamp : String) : Except String (List Entity × List AddResult) :=
  match obs with
  | [] => .ok (entries, [])
  | o :: rest =>
    match addToFirst entries o.entityName o.contents timestamp with
    | none => .error ("Entity with name " ++ o.entityName ++ " not found")
    | some (entries2, added) =>
      match addObservationsList entries2 rest timestamp with
      | .error msg => .error msg
      | .ok (entries3, results) =>
        .ok (entries3, { entityName := o.entityName, addedObservations := added } :: results)

/-- `addObservations` on the whole graph. -/
def addObservations (g : KnowledgeGraph) (obs : List ObservationAdd)
    (timestamp : String) : Except String (KnowledgeGraph × List AddResult) :=
  match addObservationsList g.entries obs timestamp with
  | .error msg => .error msg
  | .ok (entries2, results) => .ok ({ g with entries := entries2 }, results)

/-- `deleteEntities`: drop named entities and cascade over relations whose
`from` or `to` endpoint is a deleted name. -/
def deleteEntities (g : KnowledgeGraph) (entityNames : List String) : KnowledgeGraph :=
  { entries := g.entries.filter fun e => !(entityNames.contains e.name),
    relations := g.relations.filter fun r =>
      !(entityNames.contains r.«from») && !(entityNames.contains r.«to») }

/-- One `deleteObservations` batch element `{ entityName, observations }`. -/
structure ObservationDelete where
  entityName : String
  observations : List String
  deriving DecidableEq

/-- Remove matching observations from one entity; `updatedAt` is refreshed
only when the observation count actually decreased. -/
def deleteObsFromEntity (e : Entity) (observations : List String)
    (timestamp : String) : Entity :=
  let filtered := e.observations.filter fun o => !(observations.contains o)
  if filtered.length != e.observations.length then
    { e with observations := filtered, updatedAt := timestamp }
  else
    { e with observations := filtered }

/-- Apply one deletion batch to the first entity whose name matches; a
missing entity is silently skipped. -/
def deleteFromFirst (entries : List Entity) (n : String)
    (observations : List String) (timestamp : String) : List Entity :=
  match entries with
  | [] => []
  | e :: rest =>
    if e.name == n then deleteObsFromEntity e observations timestamp :: rest
    else e :: deleteFromFirst rest n observations timestamp

/-- Sequential `deletions.forEach` of the source. -/
def deleteObservationsList (entries : List Entity) (ds : List ObservationDelete)
    (timestamp : String) : List Entity :=
  match ds with
  | [] => entries
  | d :: rest =>
    deleteObservationsList (deleteFromFirst entries d.entityName d.observations timestamp)
      rest timestamp

/-- `deleteObservations` on the whole graph; never errors. -/
def deleteObservations (g : KnowledgeGraph) (ds : List ObservationDelete)
    (timestamp : String) : KnowledgeGraph :=
  { g with entries := deleteObservationsList g.entries ds timestamp }

/-- `deleteRelations`: drop stored relations whose triple matches any input
triple; never errors. -/
def deleteRelations (g : KnowledgeGraph) (relations : List Relation) : KnowledgeGraph :=
  { g with relations := g.relations.filter fun r =>
      !(relations.any fun delRelation =>
        r.«from» == delRelation.«from» &&
        r.«to» == delRelation.«to» &&
        r.relationType == delRelation.relationType) }

/-- Lower-casing of a string, modelling JavaScript `toLowerCase()` on the
ASCII range the repository exercises. -/
def toLowerStr (s : String) : String :=
  String.mk (s.toList.map Char.toLower)

/-- Check that `needle` is an initial segment of `haystack`. -/
def leadsWith : List Char → List Char → Bool
  | [], _ => true
  | _ :: _, [] => false
  | n :: ns, h :: hs => n == h && leadsWith ns hs

/-- Check that `needle` occurs contiguously inside `haystack`. -/
def occursIn (needle : List Char) (haystack : List Char) : Bool :=
  match haystack with
  | [] => needle.isEmpty
  | _ :: hs => leadsWith needle haystack || occursIn needle hs

/-- JavaScript `s.includes(sub)`: substring containment. -/
def strIncludes (s sub : String) : Bool :=
  occursIn sub.toList s.toList

/-- Entity text match of `applyFilters` and `searchNodes`: case-insensitive
substring match on name, entityType, or any observation.  `searchLower`
is already lower-cased by the caller. -/
def entityMatchesText (e : Entity) (searchLower : String) : Bool :=
  strIncludes (toLowerStr e.name) searchLower ||
  strIncludes (toLowerStr e.entityType) searchLower ||
  e.observations.any fun o => strIncludes (toLowerStr o) searchLower

/-- Relation text match: case-insensitive substring match on from, to, or
relationType. -/
def relationMatchesText (r : Relation) (searchLower : String) : Bool :=
  strIncludes (toLowerStr r.«from») searchLower ||
  strIncludes (toLowerStr r.«to») searchLower ||
  strIncludes (toLowerStr r.relationType) searchLower

/-- `interface PaginationOptions { offset; limit }`. -/
structure PaginationOptions where
  offset : Nat
  limit : Nat
  deriving DecidableEq

/-- `interface FilterOptions` with all clauses optional. -/
structure FilterOptions where
  entityTypes : Option (List String) := none
  relationTypes : Option (List String) := none
  fromDate : Option String := none
  toDate : Option String := none
  searchText : Option String := none
  deriving DecidableEq

/-- `items.slice(offset, offset + limit)` of `applyPagination`. -/
def applyPagination {α : Type} (items : List α) (pagination : PaginationOptions) : List α :=
  (items.drop pagination.offset).take pagination.limit

/-- Entity side of `applyFilters`; `parseDate` models `new Date(s).getTime()`
(calendar-time comparison of the source). -/
def filterEntities (entities : List Entity) (filter : FilterOptions)
    (parseDate : String → Int) : List Entity :=
  let fe1 := match filter.entityTypes with
    | some ts => if ts.length != 0 then entities.filter (fun e => ts.contains e.entityType) else entities
    | none => entities
  let fe2 := match filter.searchText with
    | some s => if s != "" then fe1.filter (fun e => entityMatchesText e (toLowerStr s)) else fe1
    | none => fe1
  let fe3 := match filter.fromDate with
    | some d => if d != "" then fe2.filter (fun e => parseDate d ≤ parseDate e.updatedAt) else fe2
    | none => fe2
  match filter.toDate with
  | some d => if d != "" then fe3.filter (fun e => parseDate e.updatedAt ≤ parseDate d) else fe3
  | none => fe3

/-- Relation side of `applyFilters`. -/
def filterRelations (relations : List Relation) (filter : FilterOptions)
    (parseDate : String → Int) : List Relation :=
  let fr1 := match filter.relationTypes with
    | some ts => if ts.length != 0 then relations.filter (fun r => ts.contains r.relationType) else relations
    | none => relations
  let fr2 := match filter.searchText with
    | some s => if s != "" then fr1.filter (fun r => relationMatchesText r (toLowerStr s)) else fr1
    | none => fr1
  let fr3 := match filter.fromDate with
    | some d => if d != "" then fr2.filter (fun r => parseDate d ≤ parseDate r.updatedAt) else fr2
    | none => fr2
  match filter.toDate with
  | some d => if d != "" then fr3.filter (fun r => parseDate r.updatedAt ≤ parseDate d) else fr3
  | none => fr3

/-- `interface PaginatedResponse<KnowledgeGraph>`; `nextOffset?: number`
becomes `Option Nat`. -/
structure PaginatedGraph where
  items : KnowledgeGraph
  total : Nat
  hasMore : Bool
  nextOffset : Option Nat
  deriving DecidableEq

/-- `readGraph`: filter, then paginate entities and relations independently
with the same offset/limit pair; `nextOffset` is set unconditionally. -/
def readGraph (g : KnowledgeGraph) (pagination : PaginationOptions)
    (filter : FilterOptions) (parseDate : String → Int) : PaginatedGraph :=
  let filteredEntities := filterEntities g.entries filter parseDate
  let filteredRelations := filterRelations g.relations filter parseDate
  let totalEntities := filteredEntities.length
  let totalRelations := filteredRelations.length
  { items := { entries := applyPagination filteredEntities pagination,
               relations := applyPagination filteredRelations pagination },
    total := max totalEntities totalRelations,
    hasMore := decide (pagination.offset + pagination.limit < max totalEntities totalRelations),
    nextOffset := some (pagination.offset + pagination.limit) }

/-- Entities matched by `searchNodes` before pagination; `queryLower` is the
lower-cased query. -/
def searchMatchedEntities (g : KnowledgeGraph) (queryLower : String) : List Entity :=
  g.entries.filter fun e => entityMatchesText e queryLower

/-- Relations matched by `searchNodes` before pagination: a field of the
relation matches the query, or both endpoints are names of matched
entities. -/
def searchMatchedRelations (g : KnowledgeGraph) (queryLower : String) : List Relation :=
  let matchedEntityNames := (searchMatchedEntities g queryLower).map (fun e => e.name)
  g.relations.filter fun r =>
    strIncludes (toLowerStr r.«from») queryLower ||
    strIncludes (toLowerStr r.«to») queryLower ||
    strIncludes (toLowerStr r.relationType) queryLower ||
    (matchedEntityNames.contains r.«from» && matchedEntityNames.contains r.«to»)

/-- `searchNodes`: match, paginate both lists with the same window, and set
`nextOffset` only when one of the lists has elements past the window. -/
def searchNodes (g : KnowledgeGraph) (query : String)
    (pagination : PaginationOptions) : PaginatedGraph :=
  let queryLower := toLowerStr query
  let matchedEntities := searchMatchedEntities g queryLower
  let matchedRelations := searchMatchedRelations g queryLower
  let totalEntities := matchedEntities.length
  let totalRelations := matchedRelations.length
  let hasMoreEntities := decide (pagination.offset + pagination.limit < totalEntities)
  let hasMoreRelations := decide (pagination.offset + pagination.limit < totalRelations)
  { items := { entries := (matchedEntities.drop pagination.offset).take pagination.limit,
               relations := (matchedRelations.drop pagination.offset).take pagination.limit },
    total := max totalEntities totalRelations,
    hasMore := hasMoreEntities || hasMoreRelations,
    nextOffset := if hasMoreEntities || hasMoreRelations then
        some (pagination.offset + pagination.limit)
      else none }

/-- One inner step of the `getRelatedNodes` loop body: examine every
relation touching `nodeName` and record unseen endpoints into the visited
set and the next frontier. -/
def expandNode (relations : List Relation) (acc : List String × List String)
    (nodeName : String) : List String × List String :=
  let relatedRelations := relations.filter fun r => r.«from» == nodeName || r.«to» == nodeName
  relatedRelations.foldl
    (fun acc2 relation =>
      let acc3 :=
        if acc2.1.contains relation.«from» then acc2
        else (acc2.1 ++ [relation.«from»], acc2.2 ++ [relation.«from»])
      if acc3.1.contains relation.«to» then acc3
      else (acc3.1 ++ [relation.«to»], acc3.2 ++ [relation.«to»]))
    acc

/-- The `while (currentDepth < depth && nodesToProcess.length > 0)` loop of
`getRelatedNodes`, with the remaining depth as fuel; returns the visited
name set (insertion-ordered). -/
def bfsVisited (relations : List Relation) (visited frontier : List String) :
    Nat → List String
  | 0 => visited
  | Nat.succ d =>
    if frontier.isEmpty then visited
    else
      let stepped := frontier.foldl (expandNode relations) (visited, [])
      bfsVisited relations stepped.1 stepped.2 d

/-- `getRelatedNodes`: BFS the visited name set, then keep the entities whose
name was visited and the relations with both endpoints visited. -/
def getRelatedNodes (g : KnowledgeGraph) (startingNodeName : String)
    (depth : Nat) : KnowledgeGraph :=
  let relatedEntityNames := bfsVisited g.relations [startingNodeName] [startingNodeName] depth
  { entries := g.entries.filter fun e => relatedEntityNames.contains e.name,
    relations := g.relations.filter fun r =>
      relatedEntityNames.contains r.«from» && relatedEntityNames.contains r.«to» }

/-- One parsed line of the backing file: a tagged entity record, a tagged
relation record (identity and timestamp fields optional, as legacy lines
may lack them), or a line whose tag is neither (dropped by `loadGraph`). -/
inductive FileLine where
  | entityLine (name entityType : String) (observations : List String)
      (uuid createdAt updatedAt : Option String) : FileLine
  | relationLine («from» «to» relationType : String)
      (uuid createdAt updatedAt : Option String) : FileLine
  | junkLine : FileLine
  deriving DecidableEq

/-- JavaScript `field || fallback` on an optional string field: an absent
field and the empty string are both falsy and take the fallback. -/
def orFallback (s : Option String) (fallback : String) : String :=
  match s with
  | some str => if str != "" then str else fallback
  | none => fallback

/-- Fold one parsed line into the accumulated graph, as the `reduce` body of
`loadGraph` does; `freshUuid` models the `generateUUID()` call and
`timestamp` the per-line `getCurrentTimestamp()` call. -/
def loadLine (g : KnowledgeGraph) (line : FileLine)
    (freshUuid timestamp : String) : KnowledgeGraph :=
  match line with
  | .entityLine n ty obs u c upd =>
    { g with entries := g.entries ++
        [{ uuid := orFallback u freshUuid, createdAt := orFallback c timestamp,
           updatedAt := orFallback upd timestamp, name := n, entityType := ty,
           observations := obs }] }
  | .relationLine f t rt u c upd =>
    { g with relations := g.relations ++
        [{ uuid := orFallback u freshUuid, createdAt := orFallback c timestamp,
           updatedAt := orFallback upd timestamp, «from» := f, «to» := t,
           relationType := rt }] }
  | .junkLine => g

/-- Fold the parsed lines of the file into a graph starting from line
index `i`; `genU i` and `genT i` model the UUID and timestamp obtained
while processing line `i`. -/
def loadGraphFrom (lines : List FileLine) (i : Nat) (genU genT : Nat → String)
    (g : KnowledgeGraph) : KnowledgeGraph :=
  match lines with
  | [] => g
  | l :: rest => loadGraphFrom rest (i + 1) genU genT (loadLine g l (genU i) (genT i))

/-- `loadGraph` over an already line-split, JSON-parsed file. -/
def loadGraph (lines : List FileLine) (genU genT : Nat → String) : KnowledgeGraph :=
  loadGraphFrom lines 0 genU genT { entries := [], relations := [] }

/-- `saveGraph`: one tagged line per entity, then one per relation, all
fields present. -/
def saveGraph (g : KnowledgeGraph) : List FileLine :=
  (g.entries.map fun e =>
    FileLine.entityLine e.name e.entityType e.observations
      (some e.uuid) (some e.createdAt) (some e.updatedAt)) ++
  (g.relations.map fun r =>
    FileLine.relationLine r.«from» r.«to» r.relationType
      (some r.uuid) (some r.createdAt) (some r.updatedAt))

/-- JSON escaping of one character, as `JSON.stringify` emits it. -/
def jsonEscapeChar (c : Char) : String :=
  if c = '"' then "\\\""
  else if c = '\\' then "\\\\"
  else if c = '\n' then "\\n"
  else if c = '\r' then "\\r"
  else if c = '\t' then "\\t"
  else if c.toNat = 8 then "\\b"
  else if c.toNat = 12 then "\\f"
  else if c.toNat < 32 then
    "\\u00" ++ String.mk [Nat.digitChar (c.toNat / 16), Nat.digitChar (c.toNat % 16)]
  else String.singleton c

/-- JSON string literal. -/
def jsonStr (s : String) : String :=
  "\"" ++ String.join (s.toList.map jsonEscapeChar) ++ "\""

/-- JSON array of string literals. -/
def jsonStrList (l : List String) : String :=
  "[" ++ String.intercalate "," (l.map jsonStr) ++ "]"

/-- Optional trailing JSON member, omitted when the field is absent. -/
def jsonOptMember (key : String) (v : Option String) : String :=
  match v with
  | some s => "," ++ jsonStr key ++ ":" ++ jsonStr s
  | none => ""

/-- Byte-level serialization of one line, with the member order the source
produces for records shaped like its own types (tag first, then the record
fields, then identity and timestamps). -/
def serializeLine : FileLine → String
  | .entityLine n ty obs u c upd =>
    "\x7b\"type\":\"entity\",\"name\":" ++ jsonStr n ++
    ",\"entityType\":" ++ jsonStr ty ++
    ",\"observations\":" ++ jsonStrList obs ++
    jsonOptMember "uuid" u ++ jsonOptMember "createdAt" c ++
    jsonOptMember "updatedAt" upd ++ "\x7d"
  | .relationLine f t rt u c upd =>
    "\x7b\"type\":\"relation\",\"from\":" ++ jsonStr f ++
    ",\"to\":" ++ jsonStr t ++
    ",\"relationType\":" ++ jsonStr rt ++
    jsonOptMember "uuid" u ++ jsonOptMember "createdAt" c ++
    jsonOptMember "updatedAt" upd ++ "\x7d"
  | .junkLine => ""

/-- File contents written by `saveGraph`: serialized lines joined with a
newline and no trailing newline. -/
def saveFile (g : KnowledgeGraph) : String :=
  String.intercalate "\n" ((saveGraph g).map serializeLine)

/-- Entity record built from a candidate, a UUID and the batch timestamp,
as `createEntities` stamps survivors. -/
def entityOf (i : EntityInput) (u t : String) : Entity :=
  { uuid := u, createdAt := t, updatedAt := t,
    name := i.name, entityType := i.entityType, observations := i.observations }

/-- Relation record built from a candidate, a UUID and the batch timestamp. -/
def relationOf (i : RelationInput) (u t : String) : Relation :=
  { uuid := u, createdAt := t, updatedAt := t,
    «from» := i.«from», «to» := i.«to», relationType := i.relationType }

/-- Deterministic stand-in for the UUID generator in concrete instances. -/
def uuidGen : Nat → String := fun i => "u" ++ toString i

/-- Deterministic stand-in for per-line load timestamps in concrete
instances. -/
def tsGen : Nat → String := fun _ => "ts"

/-- The empty graph, as loaded from a missing backing file. -/
def emptyGraph : KnowledgeGraph := { entries := [], relations := [] }

/-- Candidate entity named John from the repository test suite. -/
def johnInput : EntityInput :=
  { name := "John", entityType := "person", observations := ["Likes coffee"] }

/-- Candidate relation with a fixed triple. -/
def worksAtInput : RelationInput :=
  { «from» := "John", «to» := "Anthropic", relationType := "works_at" }

/-- Concrete entity fixtures A, B, C with all identity fields present. -/
def entA : Entity :=
  { uuid := "1", createdAt := "t0", updatedAt := "t0",
    name := "A", entityType := "node", observations := [] }

/-- Entity B of the linear-chain fixture. -/
def entB : Entity := { entA with uuid := "2", name := "B" }

/-- Entity C of the linear-chain fixture. -/
def entC : Entity := { entA with uuid := "3", name := "C" }

/-- Relation A→B of the linear-chain fixture. -/
def relAB : Relation :=
  { uuid := "4", createdAt := "t0", updatedAt := "t0",
    «from» := "A", «to» := "B", relationType := "next" }

/-- Relation B→C of the linear-chain fixture. -/
def relBC : Relation := { relAB with uuid := "5", «from» := "B", «to» := "C" }

/-- Linear chain A→B→C. -/
def gChain : KnowledgeGraph :=
  { entries := [entA, entB, entC], relations := [relAB, relBC] }

/-- Self-loop relation A→A. -/
def relAA : Relation := { relAB with uuid := "6", «from» := "A", «to» := "A" }

/-- Graph with entity A and the self-loop A→A. -/
def gLoop : KnowledgeGraph := { entries := [entA], relations := [relAA] }

/-- Entity whose uuid is the empty string (falsy in JavaScript). -/
def entBad : Entity := { entA with uuid := "" }

/-- Graph holding only `entBad`; its entity names are trivially unique. -/
def gBad : KnowledgeGraph := { entries := [entBad], relations := [] }

/-- Bridge between the boolean string equality test of the source embedding
and propositional equality. -/
theorem strBeqDecide (a b : String) : (a == b) = decide (a = b) := by
  by_cases h : a = b
  · subst h; simp
  · simp [h]

/-- A one-candidate `createEntities` batch whose name is not yet stored
creates exactly that record. -/
theorem createEntities_fresh (g : KnowledgeGraph) (i : EntityInput) (gen : Nat → String)
    (t : String) (hi : (g.entries.any fun e => e.name == i.name) = false) :
    createEntities g [i] gen t =
      ({ g with entries := g.entries ++ [entityOf i (gen 0) t] }, [entityOf i (gen 0) t]) := by
  simp [createEntities, List.filter, hi, assignEntityIds, entityOf]

/-- A one-candidate `createEntities` batch whose name is already stored is a
pure no-op with an empty result. -/
theorem createEntities_dup (g : KnowledgeGraph) (j : EntityInput) (gen : Nat → String)
    (t : String) (hj : (g.entries.any fun e => e.name == j.name) = true) :
    createEntities g [j] gen t = (g, []) := by
  simp [createEntities, List.filter, hj, assignEntityIds]

/-- A one-candidate `createRelations` batch whose triple is not yet stored
creates exactly that record. -/
theorem createRelations_fresh (g : KnowledgeGraph) (i : RelationInput) (gen : Nat → String)
    (t : String)
    (hi : (g.relations.any fun x => x.«from» == i.«from» && x.«to» == i.«to» &&
      x.relationType == i.relationType) = false) :
    createRelations g [i] gen t =
      ({ g with relations := g.relations ++ [relationOf i (gen 0) t] },
       [relationOf i (gen 0) t]) := by
  simp [createRelations, List.filter, hi, assignRelationIds, relationOf]

/-- A one-candidate `createRelations` batch whose triple is already stored is
a pure no-op with an empty result. -/
theorem createRelations_dup (g : KnowledgeGraph) (j : RelationInput) (gen : Nat → String)
    (t : String)
    (hj : (g.relations.any fun x => x.«from» == j.«from» && x.«to» == j.«to» &&
      x.relationType == j.relationType) = true) :
    createRelations g [j] gen t = (g, []) := by
  simp [createRelations, List.filter, hj, assignRelationIds]

/-- C1, counterexample: the dedup filter of `createEntities` checks
candidates only against the records already stored, so a batch holding the
same name twice stores two entities with that name, refuting the claim that
a same-batch duplicate pair yields exactly one stored record. -/
theorem c1_same_batch_counterexample :
    ((createEntities emptyGraph [johnInput, johnInput] uuidGen "t1").1.entries.filter
      fun e => e.name == "John").length = 2 := by decide

/-- C1, amended: across sequential calls the dedup rule holds as claimed:
creating a record whose key is fresh stores it (exactly one record with
that key when none existed), and a second call reusing the key returns an
empty result and leaves the store unchanged — both for entities (key
`name`) and for relations (key `(from, to, relationType)`).  Within a
single batch, candidates are filtered only against already-stored records,
so same-batch duplicates are each created. -/
theorem c1_dedup_sequential_amended (g : KnowledgeGraph) (i j : EntityInput)
    (ri rj : RelationInput) (gen gen2 gen3 gen4 : Nat → String) (t t2 t3 t4 : String)
    (hi : (g.entries.any fun e => e.name == i.name) = false)
    (hj : j.name = i.name)
    (hri : (g.relations.any fun x => x.«from» == ri.«from» && x.«to» == ri.«to» &&
      x.relationType == ri.relationType) = false)
    (hrj : rj.«from» = ri.«from» ∧ rj.«to» = ri.«to» ∧ rj.relationType = ri.relationType) :
    ((createEntities g [i] gen t).2.length = 1 ∧
     ((createEntities g [i] gen t).1.entries.filter fun e => e.name == i.name).length = 1 ∧
     createEntities (createEntities g [i] gen t).1 [j] gen2 t2 =
       ((createEntities g [i] gen t).1, [])) ∧
    ((createRelations g [ri] gen3 t3).2.length = 1 ∧
     ((createRelations g [ri] gen3 t3).1.relations.filter fun x =>
        x.«from» == ri.«from» && x.«to» == ri.«to» && x.relationType == ri.relationType).length = 1 ∧
     createRelations (createRelations g [ri] gen3 t3).1 [rj] gen4 t4 =
       ((createRelations g [ri] gen3 t3).1, [])) := by
  have hi2 := hi
  have hri2 := hri
  rw [List.any_eq_false] at hi2 hri2
  simp only [beq_iff_eq, Bool.and_eq_true] at hi2 hri2
  constructor
  · rw [createEntities_fresh g i gen t hi]
    refine ⟨rfl, ?_, ?_⟩
    · simp [List.filter_append, entityOf]
      exact hi2
    · apply createEntities_dup
      simp [List.any_append, entityOf, hj]
  · rw [createRelations_fresh g ri gen3 t3 hri]
    refine ⟨rfl, ?_, ?_⟩
    · simp [List.filter_append, relationOf]
      intro a ha h1 h2 h3
      exact hri2 a ha ⟨⟨h1, h2⟩, h3⟩
    · apply createRelations_dup
      simp [List.any_append, relationOf, hrj.1, hrj.2.1, hrj.2.2]

/-- C1, witness: the amended dedup statement applied to the John entity and
the works_at relation on the empty store. -/
theorem c1_dedup_witness :
    createEntities (createEntities emptyGraph [johnInput] uuidGen "t1").1 [johnInput] uuidGen "t2" =
      ((createEntities emptyGraph [johnInput] uuidGen "t1").1, []) ∧
    createRelations (createRelations emptyGraph [worksAtInput] uuidGen "t3").1 [worksAtInput]
        uuidGen "t4" =
      ((createRelations emptyGraph [worksAtInput] uuidGen "t3").1, []) :=
  ⟨(c1_dedup_sequential_amended emptyGraph johnInput johnInput worksAtInput worksAtInput
      uuidGen uuidGen uuidGen uuidGen "t1" "t2" "t3" "t4"
      (by decide) rfl (by decide) ⟨rfl, rfl, rfl⟩).1.2.2,
   (c1_dedup_sequential_amended emptyGraph johnInput johnInput worksAtInput worksAtInput
      uuidGen uuidGen uuidGen uuidGen "t1" "t2" "t3" "t4"
      (by decide) rfl (by decide) ⟨rfl, rfl, rfl⟩).2.2.2⟩

/-- Falsy-field fallback is not taken when the stored field is non-empty. -/
theorem orFallback_ne (s fb : String) (h : s ≠ "") : orFallback (some s) fb = s := by
  simp [orFallback, h]

/-- Loading split lines processes the first run, then the second run at the
shifted line index. -/
theorem loadGraphFrom_append (l1 l2 : List FileLine) (i : Nat) (f t : Nat → String)
    (g : KnowledgeGraph) :
    loadGraphFrom (l1 ++ l2) i f t g =
      loadGraphFrom l2 (i + l1.length) f t (loadGraphFrom l1 i f t g) := by
  induction l1 generalizing i g with
  | nil => simp [loadGraphFrom]
  | cons a l ih =>
    simp only [List.cons_append, loadGraphFrom, List.length_cons, List.append_eq]
    rw [ih]
    congr 1
    omega

/-- Loading the saved lines of entities whose identity fields are non-empty
appends exactly those entities. -/
theorem loadGraphFrom_entities (es : List Entity) (i : Nat) (f t : Nat → String)
    (g : KnowledgeGraph)
    (h : ∀ e ∈ es, e.uuid ≠ "" ∧ e.createdAt ≠ "" ∧ e.updatedAt ≠ "") :
    loadGraphFrom (es.map fun e => FileLine.entityLine e.name e.entityType e.observations
      (some e.uuid) (some e.createdAt) (some e.updatedAt)) i f t g =
      { g with entries := g.entries ++ es } := by
  induction es generalizing i g with
  | nil => simp [loadGraphFrom]
  | cons e es ih =>
    obtain ⟨h1, h2, h3⟩ := h e (by simp)
    simp only [List.map_cons, loadGraphFrom, loadLine,
      orFallback_ne _ _ h1, orFallback_ne _ _ h2, orFallback_ne _ _ h3]
    rw [ih _ _ (fun x hx => h x (by simp [hx]))]
    simp

/-- Loading the saved lines of relations whose identity fields are non-empty
appends exactly those relations. -/
theorem loadGraphFrom_relations (rs : List Relation) (i : Nat) (f t : Nat → String)
    (g : KnowledgeGraph)
    (h : ∀ r ∈ rs, r.uuid ≠ "" ∧ r.createdAt ≠ "" ∧ r.updatedAt ≠ "") :
    loadGraphFrom (rs.map fun r => FileLine.relationLine r.«from» r.«to» r.relationType
      (some r.uuid) (some r.createdAt) (some r.updatedAt)) i f t g =
      { g with relations := g.relations ++ rs } := by
  induction rs generalizing i g with
  | nil => simp [loadGraphFrom]
  | cons r rs ih =>
    obtain ⟨h1, h2, h3⟩ := h r (by simp)
    simp only [List.map_cons, loadGraphFrom, loadLine,
      orFallback_ne _ _ h1, orFallback_ne _ _ h2, orFallback_ne _ _ h3]
    rw [ih _ _ (fun x hx => h x (by simp [hx]))]
    simp

/-- C2, counterexample: a graph whose single entity has the empty string as
uuid has unique entity names and unique relation triples, yet load after
save backfills the falsy uuid with a freshly generated one, so the
round-trip claim fails as stated. -/
theorem c2_round_trip_counterexample :
    loadGraph (saveGraph gBad) uuidGen tsGen ≠ gBad := by decide

/-- C2, amended: for every graph with unique entity names, unique relation
triples, and non-empty uuid, createdAt and updatedAt on every record, load
applied to the saved lines reproduces the graph exactly, and saving the
reloaded graph produces byte-identical file contents. -/
theorem c2_round_trip_amended (g : KnowledgeGraph) (genU genT : Nat → String)
    (hnames : (g.entries.map fun e => e.name).Nodup)
    (htriples : (g.relations.map fun r => (r.«from», r.«to», r.relationType)).Nodup)
    (hE : ∀ e ∈ g.entries, e.uuid ≠ "" ∧ e.createdAt ≠ "" ∧ e.updatedAt ≠ "")
    (hR : ∀ r ∈ g.relations, r.uuid ≠ "" ∧ r.createdAt ≠ "" ∧ r.updatedAt ≠ "") :
    loadGraph (saveGraph g) genU genT = g ∧
    saveFile (loadGraph (saveGraph g) genU genT) = saveFile g := by
  have hmain : loadGraph (saveGraph g) genU genT = g := by
    unfold loadGraph saveGraph
    rw [loadGraphFrom_append]
    rw [loadGraphFrom_entities _ _ _ _ _ hE]
    rw [loadGraphFrom_relations _ _ _ _ _ hR]
    simp
  exact ⟨hmain, by rw [hmain]⟩

/-- C2, witness: the round trip holds on the well-formed chain graph. -/
theorem c2_round_trip_witness :
    loadGraph (saveGraph gChain) uuidGen tsGen = gChain ∧
    saveFile (loadGraph (saveGraph gChain) uuidGen tsGen) = saveFile gChain :=
  c2_round_trip_amended gChain uuidGen tsGen (by decide) (by decide) (by decide) (by decide)

/-- C3: `deleteEntities` keeps exactly the entities whose name is not in the
input and cascades over relations: a relation survives iff neither endpoint
is a deleted name; every entity not named in the input remains. -/
theorem c3_delete_entities_cascade (g : KnowledgeGraph) (names : List String) :
    (∀ e : Entity, e ∈ (deleteEntities g names).entries ↔ e ∈ g.entries ∧ e.name ∉ names) ∧
    (∀ r : Relation, r ∈ (deleteEntities g names).relations ↔
      r ∈ g.relations ∧ r.«from» ∉ names ∧ r.«to» ∉ names) := by
  constructor
  · intro e; simp [deleteEntities, List.mem_filter]
  · intro r; simp [deleteEntities, List.mem_filter]

/-- Finding an entity to mutate succeeds exactly when some stored entity
carries the requested name. -/
theorem addToFirst_isSome (entries : List Entity) (n : String) (c : List String) (t : String) :
    (addToFirst entries n c t).isSome = (entries.any fun e => e.name == n) := by
  induction entries with
  | nil => rfl
  | cons e rest ih =>
    simp only [addToFirst, List.any_cons]
    cases hb : (e.name == n) with
    | true =>
      simp only [hb, if_true]
      split <;> simp
    | false =>
      simp only [hb, Bool.false_eq_true, if_false, Bool.false_or]
      rw [← ih]
      rcases hrec : addToFirst rest n c t with _ | ⟨r2, ad⟩ <;> simp [hrec]

/-- Mutating one entity in place preserves the name sequence of the entries
list. -/
theorem addToFirst_names (entries : List Entity) (n : String) (c : List String) (t : String)
    (entries2 : List Entity) (a : List String)
    (h : addToFirst entries n c t = some (entries2, a)) :
    entries2.map (fun e => e.name) = entries.map fun e => e.name := by
  induction entries generalizing entries2 a with
  | nil => exact Option.noConfusion h
  | cons e rest ih =>
    simp only [addToFirst] at h
    split at h
    · split at h <;> (cases h; simp)
    · split at h
      · exact Option.noConfusion h
      · rename_i rest2 hrec
        cases h
        simp only [List.map_cons]
        rw [ih _ _ hrec]

/-- Lists with the same name sequence agree on every name-existence test. -/
theorem any_names_congr (l1 l2 : List Entity)
    (h : l1.map (fun e => e.name) = l2.map fun e => e.name) (m : String) :
    (l1.any fun e => e.name == m) = l2.any fun e => e.name == m := by
  induction l1 generalizing l2 with
  | nil =>
    cases l2 with
    | nil => rfl
    | cons b bs => simp at h
  | cons x xs ih =>
    cases l2 with
    | nil => simp at h
    | cons b bs =>
      simp only [List.map_cons, List.cons.injEq] at h
      simp only [List.any_cons, h.1, ih bs h.2]

/-- The sequential observation batch succeeds exactly when every referenced
entity name exists in the entries list. -/
theorem addObservationsList_isOk (obs : List ObservationAdd) (entries : List Entity)
    (t : String) :
    (addObservationsList entries obs t).isOk = true ↔
      ∀ o ∈ obs, (entries.any fun e => e.name == o.entityName) = true := by
  induction obs generalizing entries with
  | nil => simp [addObservationsList, Except.isOk, Except.toBool]
  | cons o rest ih =>
    simp only [addObservationsList]
    split
    · rename_i heq
      have hsome := addToFirst_isSome entries o.entityName o.contents t
      rw [heq] at hsome
      simp only [Option.isSome_none] at hsome
      constructor
      · intro hc; exact absurd hc (by simp [Except.isOk, Except.toBool])
      · intro hall
        have hx := hall o (by simp)
        rw [← hsome] at hx
        exact Bool.noConfusion hx
    · rename_i e1 a heq
      have hnames := addToFirst_names entries o.entityName o.contents t e1 a heq
      have hsome := addToFirst_isSome entries o.entityName o.contents t
      rw [heq] at hsome
      simp only [Option.isSome_some] at hsome
      split
      · rename_i msg hrec
        constructor
        · intro hc; exact absurd hc (by simp [Except.isOk, Except.toBool])
        · intro hall
          have hex := (ih e1).mpr (fun o2 ho2 => by
            rw [any_names_congr e1 entries hnames o2.entityName]
            exact hall o2 (by simp [ho2]))
          rw [hrec] at hex
          exact absurd hex (by simp [Except.isOk, Except.toBool])
      · rename_i es res hrec
        constructor
        · intro _ o2 ho2
          rcases List.mem_cons.mp ho2 with h1 | h2
          · subst h1; exact hsome.symm
          · rw [← any_names_congr e1 entries hnames o2.entityName]
            exact ((ih e1).mp (by rw [hrec]; rfl)) o2 h2
        · intro _; rfl

/-- Deleting observations of a name carried by no entity leaves the entries
unchanged. -/
theorem deleteFromFirst_no_match (entries : List Entity) (n : String) (o : List String)
    (t : String) (h : (entries.any fun e => e.name == n) = false) :
    deleteFromFirst entries n o t = entries := by
  induction entries with
  | nil => rfl
  | cons e rest ih =>
    simp only [List.any_cons, Bool.or_eq_false_iff] at h
    simp only [deleteFromFirst, h.1, Bool.false_eq_true, if_false]
    rw [ih h.2]

/-- A whole deletion batch referencing only missing names leaves the entries
unchanged. -/
theorem deleteObservationsList_no_match (ds : List ObservationDelete) (entries : List Entity)
    (t : String) (h : ∀ d ∈ ds, (entries.any fun e => e.name == d.entityName) = false) :
    deleteObservationsList entries ds t = entries := by
  induction ds with
  | nil => rfl
  | cons d rest ih =>
    simp only [deleteObservationsList]
    rw [deleteFromFirst_no_match entries _ _ _ (h d (by simp))]
    exact ih (fun d2 hd2 => h d2 (by simp [hd2]))

/-- Dangling relation X→A whose `from` endpoint is not an entity. -/
def relXA : Relation := { relAB with uuid := "7", «from» := "X", «to» := "A" }

/-- Graph with entity A and the dangling relation X→A. -/
def gDangling : KnowledgeGraph := { entries := [entA], relations := [relXA] }

/-- C4, counterexample: the graph holds entity A and the dangling relation
X→A, and no entity named X exists; yet `deleteEntities` on the
non-existent name X is not a no-op, because the cascade filter removes
every relation whose endpoint is a deleted name whether or not that name
exists as an entity. -/
theorem c4_dangling_delete_counterexample :
    deleteEntities gDangling ["X"] ≠ gDangling := by decide

/-- C4, amended: `addObservations` fails exactly when some referenced entity
name is absent from the graph, and it is the only core mutation that errors
on a bad reference: `deleteObservations` and `deleteRelations` applied to
names or triples that do not exist complete as pure no-ops, and
`deleteEntities` is a no-op for names that exist neither as an entity nor
as a relation endpoint — when a non-existent name does appear as an
endpoint of a (dangling) relation, the cascade still removes that
relation. -/
theorem c4_error_asymmetry :
    (∀ (g : KnowledgeGraph) (obs : List ObservationAdd) (t : String),
      (addObservations g obs t).isOk = false ↔
        ∃ o ∈ obs, (g.entries.any fun e => e.name == o.entityName) = false) ∧
    (∀ (g : KnowledgeGraph) (names : List String),
      (∀ e ∈ g.entries, e.name ∉ names) →
      (∀ r ∈ g.relations, r.«from» ∉ names ∧ r.«to» ∉ names) →
      deleteEntities g names = g) ∧
    (∀ (g : KnowledgeGraph) (ds : List ObservationDelete) (t : String),
      (∀ d ∈ ds, (g.entries.any fun e => e.name == d.entityName) = false) →
      deleteObservations g ds t = g) ∧
    (∀ (g : KnowledgeGraph) (rs : List Relation),
      (∀ r ∈ g.relations, (rs.any fun d => r.«from» == d.«from» && r.«to» == d.«to» &&
        r.relationType == d.relationType) = false) →
      deleteRelations g rs = g) := by
  refine ⟨?_, ?_, ?_, ?_⟩
  · intro g obs t
    have hrw : (addObservations g obs t).isOk = (addObservationsList g.entries obs t).isOk := by
      unfold addObservations
      split <;> (rename_i heq; rw [heq]) <;> rfl
    rw [hrw, Bool.eq_false_iff, Ne, addObservationsList_isOk]
    push_neg
    simp [Bool.not_eq_true]
  · intro g names h1 h2
    have he : g.entries.filter (fun e => !(names.contains e.name)) = g.entries :=
      List.filter_eq_self.mpr (fun e hme => by simp [h1 e hme])
    have hr : g.relations.filter (fun r =>
        !(names.contains r.«from») && !(names.contains r.«to»)) = g.relations :=
      List.filter_eq_self.mpr (fun r hmr => by simp [(h2 r hmr).1, (h2 r hmr).2])
    unfold deleteEntities
    rw [he, hr]
  · intro g ds t h
    unfold deleteObservations
    rw [deleteObservationsList_no_match ds g.entries t h]
  · intro g rs h
    have hr : g.relations.filter (fun r => !(rs.any fun d => r.«from» == d.«from» &&
        r.«to» == d.«to» && r.relationType == d.relationType)) = g.relations :=
      List.filter_eq_self.mpr (fun r hmr => by simp [h r hmr])
    unfold deleteRelations
    rw [hr]

/-- C4, witness: on the chain graph, adding observations to an unknown name
fails, while deleting an unknown entity, unknown observations and an
unmatched relation triple all leave the store unchanged. -/
theorem c4_error_asymmetry_witness :
    (addObservations gChain [{ entityName := "Nobody", contents := ["x"] }] "t5").isOk = false ∧
    deleteEntities gChain ["Z"] = gChain ∧
    deleteObservations gChain [{ entityName := "Z", observations := ["x"] }] "t5" = gChain ∧
    deleteRelations gChain [relAA] = gChain :=
  ⟨(c4_error_asymmetry.1 gChain [{ entityName := "Nobody", contents := ["x"] }] "t5").mpr
      ⟨{ entityName := "Nobody", contents := ["x"] }, by simp, by decide⟩,
   c4_error_asymmetry.2.1 gChain ["Z"] (by decide) (by decide),
   c4_error_asymmetry.2.2.1 gChain [{ entityName := "Z", observations := ["x"] }] "t5"
     (by decide),
   c4_error_asymmetry.2.2.2 gChain [relAA] (by decide)⟩

/-- C5, counterexample: on the graph with the self-loop A→A, depth-0
traversal from A returns a non-empty relation list, refuting the claim that
`getRelatedNodes(name, 0)` returns no relations on every graph. -/
theorem c5_depth_zero_counterexample :
    (getRelatedNodes gLoop "A" 0).relations ≠ [] := by decide

/-- C5, amended: depth-0 traversal returns the entities carrying the
starting name and the relations whose both endpoints equal the starting
name (self-loops included); on the linear chain A→B→C the claimed depth
behavior holds: depth 1 yields {A, B} with the A→B relation only, depth 2
yields {A, B, C} with both relations, and depth 0 yields {A} with no
relations. -/
theorem c5_traversal_depth_amended :
    (∀ (g : KnowledgeGraph) (n : String), getRelatedNodes g n 0 =
      { entries := g.entries.filter fun e => e.name == n,
        relations := g.relations.filter fun r => r.«from» == n && r.«to» == n }) ∧
    getRelatedNodes gChain "A" 0 = { entries := [entA], relations := [] } ∧
    getRelatedNodes gChain "A" 1 = { entries := [entA, entB], relations := [relAB] } ∧
    getRelatedNodes gChain "A" 2 =
      { entries := [entA, entB, entC], relations := [relAB, relBC] } := by
  refine ⟨?_, by decide, by decide, by decide⟩
  intro g n
  simp [getRelatedNodes, bfsVisited, List.contains, strBeqDecide]

/-- Adding one absent observation to the first entity named `n` appends it,
and a second identical add is reported empty and leaves the entries
unchanged. -/
theorem addToFirst_twice (entries : List Entity) (n s t1 t2 : String) (e : Entity)
    (hfind : entries.find? (fun x => x.name == n) = some e) (hs : s ∉ e.observations) :
    ∃ entries1, addToFirst entries n [s] t1 = some (entries1, [s]) ∧
      entries1.find? (fun x => x.name == n) =
        some { e with observations := e.observations ++ [s], updatedAt := t1 } ∧
      addToFirst entries1 n [s] t2 = some (entries1, []) := by
  induction entries with
  | nil => exact Option.noConfusion hfind
  | cons x rest ih =>
    cases hb : (x.name == n) with
    | true =>
      have hx : x = e := by
        simp only [List.find?, hb] at hfind
        exact Option.some.inj hfind
      subst hx
      have hfil : ([s].filter fun content => !(x.observations.contains content)) = [s] := by
        simp [List.filter_singleton, hs]
      refine ⟨{ x with observations := x.observations ++ [s], updatedAt := t1 } :: rest,
        ?_, ?_, ?_⟩
      · simp only [addToFirst, hb, if_true]
        rw [hfil]
        simp
      · simp [List.find?, hb]
      · have hfil2 : ([s].filter fun content =>
            !((x.observations ++ [s]).contains content)) = [] := by
          simp [List.filter_singleton]
        simp only [addToFirst, hb, if_true]
        rw [hfil2]
        simp
    | false =>
      have hfind2 : rest.find? (fun x => x.name == n) = some e := by
        simp only [List.find?, hb] at hfind
        exact hfind
      obtain ⟨rest1, h1, h2, h3⟩ := ih hfind2
      refine ⟨x :: rest1, ?_, ?_, ?_⟩
      · simp [addToFirst, hb, h1]
      · simp [List.find?, hb]
        exact h2
      · simp [addToFirst, hb, h3]

/-- C6: adding the same observation string to an entity twice (two
sequential `addObservations` calls) leaves the observation appearing
exactly once in that entity, and the second call reports an empty added
list and returns the graph entirely unchanged — in particular `updatedAt`
is not refreshed. -/
theorem c6_observation_idempotent (g : KnowledgeGraph) (n s t1 t2 : String) (e : Entity)
    (hfind : g.entries.find? (fun x => x.name == n) = some e)
    (hs : s ∉ e.observations) :
    ∃ g1 : KnowledgeGraph,
      addObservations g [{ entityName := n, contents := [s] }] t1 =
        .ok (g1, [{ entityName := n, addedObservations := [s] }]) ∧
      (g1.entries.find? (fun x => x.name == n)).map (fun x => x.observations.count s) =
        some 1 ∧
      addObservations g1 [{ entityName := n, contents := [s] }] t2 =
        .ok (g1, [{ entityName := n, addedObservations := [] }]) := by
  obtain ⟨entries1, h1, h2, h3⟩ := addToFirst_twice g.entries n s t1 t2 e hfind hs
  refine ⟨{ g with entries := entries1 }, ?_, ?_, ?_⟩
  · simp [addObservations, addObservationsList, h1]
  · have hge : ({ g with entries := entries1 } : KnowledgeGraph).entries = entries1 := rfl
    rw [hge, h2]
    simp [List.count_append, List.count_eq_zero.mpr hs]
  · simp [addObservations, addObservationsList, h3]

/-- C6, witness: adding the observation hello to entity A of the chain graph
twice. -/
theorem c6_observation_idempotent_witness :
    ∃ g1 : KnowledgeGraph,
      addObservations gChain [{ entityName := "A", contents := ["hello"] }] "t6" =
        .ok (g1, [{ entityName := "A", addedObservations := ["hello"] }]) ∧
      (g1.entries.find? (fun x => x.name == "A")).map
        (fun x => x.observations.count "hello") = some 1 ∧
      addObservations g1 [{ entityName := "A", contents := ["hello"] }] "t7" =
        .ok (g1, [{ entityName := "A", addedObservations := [] }]) :=
  c6_observation_idempotent gChain "A" "hello" "t6" "t7" entA (by rfl) (by decide)

/-- Pointwise reflexive instances of an entity relation. -/
theorem forall2_refl_of {R : Entity → Entity → Prop} (l : List Entity)
    (h : ∀ a ∈ l, R a a) : List.Forall₂ R l l := by
  induction l with
  | nil => exact List.Forall₂.nil
  | cons x xs ih => exact List.Forall₂.cons (h x (by simp)) (ih fun a ha => h a (by simp [ha]))

/-- Pointwise composition of two entity-list relations. -/
theorem forall2_trans_comp {R1 R2 R3 : Entity → Entity → Prop}
    (h : ∀ a b c, R1 a b → R2 b c → R3 a c) :
    ∀ {l1 l2 l3 : List Entity}, List.Forall₂ R1 l1 l2 → List.Forall₂ R2 l2 l3 →
      List.Forall₂ R3 l1 l3 := by
  intro l1 l2 l3 h12
  induction h12 generalizing l3 with
  | nil => intro h23; cases h23; exact .nil
  | cons hab hrest ih =>
    intro h23
    cases h23 with
    | cons hbc hrest2 => exact .cons (h _ _ _ hab hbc) (ih hrest2)

/-- One observation add touches at most the first entity named `n`: names
are preserved positionwise and every entity with a different name is
unchanged. -/
theorem addToFirst_frame (entries : List Entity) (n : String) (c : List String) (t : String)
    (entries2 : List Entity) (a : List String)
    (h : addToFirst entries n c t = some (entries2, a)) :
    List.Forall₂ (fun e2 e => e2.name = e.name ∧ (e.name ≠ n → e2 = e)) entries2 entries := by
  induction entries generalizing entries2 a with
  | nil => exact Option.noConfusion h
  | cons x rest ih =>
    simp only [addToFirst] at h
    split at h
    · rename_i hb
      split at h
      · cases h
        exact .cons ⟨rfl, fun hne => absurd (by simpa using hb) hne⟩
          (forall2_refl_of rest fun a2 _ => ⟨rfl, fun _ => rfl⟩)
      · cases h
        exact .cons ⟨rfl, fun _ => rfl⟩
          (forall2_refl_of rest fun a2 _ => ⟨rfl, fun _ => rfl⟩)
    · split at h
      · exact Option.noConfusion h
      · rename_i rest2 hrec
        cases h
        exact .cons ⟨rfl, fun _ => rfl⟩ (ih _ _ hrec)

/-- A successful `addObservations` batch preserves entity names positionwise
and leaves every entity not named in the batch unchanged. -/
theorem addObservationsList_frame (obs : List ObservationAdd) (entries : List Entity)
    (t : String) (entries3 : List Entity) (res : List AddResult)
    (h : addObservationsList entries obs t = .ok (entries3, res)) :
    List.Forall₂ (fun e2 e => e2.name = e.name ∧
      (e.name ∉ obs.map (fun o => o.entityName) → e2 = e)) entries3 entries := by
  induction obs generalizing entries entries3 res with
  | nil =>
    cases h
    exact forall2_refl_of _ fun a2 _ => ⟨rfl, fun _ => rfl⟩
  | cons o rest ih =>
    simp only [addObservationsList] at h
    split at h
    · exact Except.noConfusion h
    · rename_i e1 a heq
      split at h
      · exact Except.noConfusion h
      · rename_i es2 rs2 hrec
        cases h
        have h1 := addToFirst_frame entries o.entityName o.contents t e1 a heq
        have h2 := ih e1 _ _ hrec
        refine forall2_trans_comp ?_ h2 h1
        intro a2 b c2 hab hbc
        refine ⟨hab.1.trans hbc.1, ?_⟩
        intro hnin
        simp only [List.map_cons, List.mem_cons] at hnin
        push_neg at hnin
        have hbc2 := hbc.2 hnin.1
        have hab2 := hab.2 (by rw [hbc2]; exact hnin.2)
        rw [hab2, hbc2]

/-- One observation deletion touches at most the first entity named `n`. -/
theorem deleteFromFirst_frame (entries : List Entity) (n : String) (o : List String)
    (t : String) :
    List.Forall₂ (fun e2 e => e2.name = e.name ∧ (e.name ≠ n → e2 = e))
      (deleteFromFirst entries n o t) entries := by
  induction entries with
  | nil => exact .nil
  | cons x rest ih =>
    simp only [deleteFromFirst]
    cases hb : (x.name == n) with
    | true =>
      simp only [hb, if_true]
      refine .cons ⟨?_, fun hne => absurd (by simpa using hb) hne⟩
        (forall2_refl_of rest fun a2 _ => ⟨rfl, fun _ => rfl⟩)
      simp only [deleteObsFromEntity]
      split <;> rfl
    | false =>
      simp only [hb, Bool.false_eq_true, if_false]
      exact .cons ⟨rfl, fun _ => rfl⟩ ih

/-- A `deleteObservations` batch preserves entity names positionwise and
leaves every entity not named in the batch unchanged. -/
theorem deleteObservationsList_frame (ds : List ObservationDelete) (entries : List Entity)
    (t : String) :
    List.Forall₂ (fun e2 e => e2.name = e.name ∧
      (e.name ∉ ds.map (fun d => d.entityName) → e2 = e))
      (deleteObservationsList entries ds t) entries := by
  induction ds generalizing entries with
  | nil => exact forall2_refl_of _ fun a2 _ => ⟨rfl, fun _ => rfl⟩
  | cons d rest ih =>
    simp only [deleteObservationsList]
    have h1 := deleteFromFirst_frame entries d.entityName d.observations t
    have h2 := ih (deleteFromFirst entries d.entityName d.observations t)
    refine forall2_trans_comp ?_ h2 h1
    intro a2 b c2 hab hbc
    refine ⟨hab.1.trans hbc.1, ?_⟩
    intro hnin
    simp only [List.map_cons, List.mem_cons] at hnin
    push_neg at hnin
    have hbc2 := hbc.2 hnin.1
    have hab2 := hab.2 (by rw [hbc2]; exact hnin.2)
    rw [hab2, hbc2]

/-- C9: `addObservations` (on success) and `deleteObservations` never touch
the relations list, never add or remove entities (names are preserved
positionwise), and leave every entity whose name is not among the batch
entityName values completely unchanged. -/
theorem c9_observation_frame :
    (∀ (g : KnowledgeGraph) (obs : List ObservationAdd) (t : String) (g2 : KnowledgeGraph)
        (res : List AddResult), addObservations g obs t = .ok (g2, res) →
      g2.relations = g.relations ∧
      List.Forall₂ (fun e2 e => e2.name = e.name ∧
        (e.name ∉ obs.map (fun o => o.entityName) → e2 = e)) g2.entries g.entries) ∧
    (∀ (g : KnowledgeGraph) (ds : List ObservationDelete) (t : String),
      (deleteObservations g ds t).relations = g.relations ∧
      List.Forall₂ (fun e2 e => e2.name = e.name ∧
        (e.name ∉ ds.map (fun d => d.entityName) → e2 = e))
        (deleteObservations g ds t).entries g.entries) := by
  constructor
  · intro g obs t g2 res h
    unfold addObservations at h
    split at h
    · exact Except.noConfusion h
    · rename_i hrec
      cases h
      exact ⟨rfl, addObservationsList_frame obs g.entries t _ _ hrec⟩
  · intro g ds t
    exact ⟨rfl, deleteObservationsList_frame ds g.entries t⟩

/-- Chain entity A after the witness observation add. -/
def entA2 : Entity := { entA with observations := ["x"], updatedAt := "t9" }

/-- Chain graph after the witness observation add. -/
def gChainAdd : KnowledgeGraph :=
  { entries := [entA2, entB, entC], relations := [relAB, relBC] }

/-- C9, witness: adding an observation to A of the chain graph keeps the
relations, the entity names, and the untouched entities B and C; likewise
for a deletion batch naming only A. -/
theorem c9_observation_frame_witness :
    (gChainAdd.relations = gChain.relations ∧
      List.Forall₂ (fun e2 e => e2.name = e.name ∧
        (e.name ∉ ([({ entityName := "A", contents := ["x"] } : ObservationAdd)].map
          fun o => o.entityName) → e2 = e)) gChainAdd.entries gChain.entries) ∧
    ((deleteObservations gChain [{ entityName := "A", observations := ["x"] }] "t9").relations =
        gChain.relations ∧
      List.Forall₂ (fun e2 e => e2.name = e.name ∧
        (e.name ∉ ([({ entityName := "A", observations := ["x"] } : ObservationDelete)].map
          fun d => d.entityName) → e2 = e))
        (deleteObservations gChain [{ entityName := "A", observations := ["x"] }] "t9").entries
        gChain.entries) :=
  ⟨c9_observation_frame.1 gChain [{ entityName := "A", contents := ["x"] }] "t9" gChainAdd
      [{ entityName := "A", addedObservations := ["x"] }] (by rfl),
   c9_observation_frame.2 gChain [{ entityName := "A", observations := ["x"] }] "t9"⟩

/-- C7: the relation list `searchNodes` returns is the paginated window of
the matched-relation list, and a relation is matched iff its from, to, or
relationType case-insensitively substring-matches the query, or both of its
endpoints are names of matched entities. -/
theorem c7_search_relation_rule (g : KnowledgeGraph) (q : String) (p : PaginationOptions) :
    (searchNodes g q p).items.relations =
      applyPagination (searchMatchedRelations g (toLowerStr q)) p ∧
    ∀ r : Relation, r ∈ searchMatchedRelations g (toLowerStr q) ↔
      r ∈ g.relations ∧
      (strIncludes (toLowerStr r.«from») (toLowerStr q) = true ∨
       strIncludes (toLowerStr r.«to») (toLowerStr q) = true ∨
       strIncludes (toLowerStr r.relationType) (toLowerStr q) = true ∨
       ((∃ e1 ∈ searchMatchedEntities g (toLowerStr q), e1.name = r.«from») ∧
        (∃ e2 ∈ searchMatchedEntities g (toLowerStr q), e2.name = r.«to»))) := by
  constructor
  · rfl
  · intro r
    simp [searchMatchedRelations, List.mem_filter, Bool.or_eq_true, Bool.and_eq_true,
      List.contains_iff_exists_mem_beq]
    tauto

/-- C10: `readGraph` reports `nextOffset = offset + limit` unconditionally,
while `searchNodes` reports it only when one of the matched lists has
elements past the page window and omits it otherwise. -/
theorem c10_next_offset (g : KnowledgeGraph) (p : PaginationOptions) (f : FilterOptions)
    (pd : String → Int) (q : String) :
    (readGraph g p f pd).nextOffset = some (p.offset + p.limit) ∧
    (searchNodes g q p).nextOffset =
      (if p.offset + p.limit < (searchMatchedEntities g (toLowerStr q)).length ∨
          p.offset + p.limit < (searchMatchedRelations g (toLowerStr q)).length
       then some (p.offset + p.limit) else none) := by
  refine ⟨rfl, ?_⟩
  simp [searchNodes]

end OpfsMemory
